import Mathlib

/-!
Verification development for the stock-allocation handlers of the
`Events_manager-FX` repository (`SDF_Stock/src/CommandeValidation`,
`CommandeVerification`, `CommandeReception`).

Modelling conventions.
* Field values coming out of the list store are JSON-ish: a number, a string, or
  missing (`dict.get` returning `None`).  Numeric quantities (Python floats) are
  modelled as exact rationals `ℚ`.
* Python string truthiness, `None` rendering in f-strings, and `==` on possibly
  missing values are modelled explicitly (`truthyStr`, `pyStr`, `Option` with `==`,
  where `none == none` is `true`, matching `None == None` in Python).
* Fallible Python code (the uncaught `datetime.strptime` inside the incoming-stock
  sum) is modelled with `Except`; the outer `except Exception` handler of `main`
  corresponds to the error branch of the final match.
* The external Graph gateway is an injected `World`; reads return its data, writes
  are recorded as `ExtCall` values in the order the code issues them.
-/

namespace SDFStock

/-- A field value as seen through the JSON layer: a number, a string, or missing
(`dict.get` returning `None`). -/
inductive FieldVal where
  | num (q : ℚ)
  | str (s : String)
  | missing
deriving DecidableEq

/-- Value of the decimal digits `ds`, most significant first. -/
def digitsVal (ds : List Char) : Nat :=
  ds.foldl (fun a c => a * 10 + (c.toNat - 48)) 0

/-- Executable stand-in for Python `float(s)` on plain decimal strings: optional
sign, integer digits, optional fractional digits.  Returns `none` where Python
`float` raises `ValueError` (empty string, a lone dot, non-numeric text).
Exponent notation, `inf`/`nan` and surrounding whitespace, which Python would also
accept, do not occur in the sheets and are not modelled. -/
def floatOfString? (s : String) : Option ℚ :=
  let cs := s.data
  let signAndRest : ℚ × List Char :=
    match cs with
    | '-' :: r => (-1, r)
    | '+' :: r => (1, r)
    | r => (1, r)
  let sign := signAndRest.1
  let rest := signAndRest.2
  let intPart := rest.takeWhile Char.isDigit
  let rest2 := rest.dropWhile Char.isDigit
  match rest2 with
  | [] => if intPart.isEmpty then none else some (sign * digitsVal intPart)
  | '.' :: frac =>
      if frac.all Char.isDigit ∧ ¬ (intPart.isEmpty ∧ frac.isEmpty) then
        some (sign * ((digitsVal intPart : ℚ) + (digitsVal frac : ℚ) / (10 ^ frac.length)))
      else none
  | _ => none

/-- `parse_float` from the source (all three handlers): `float(value)` with every
exception mapped to zero.  `float(None)` raises `TypeError`, hence `missing ↦ 0`. -/
def parse_float : FieldVal → ℚ
  | .num q => q
  | .str s => (floatOfString? s).getD 0
  | .missing => 0

/-- A calendar date, as produced by `datetime.strptime(s, "%Y-%m-%d")`. -/
structure Date where
  year : Nat
  month : Nat
  day : Nat
deriving DecidableEq

/-- Chronological strict order on dates (Python `datetime` comparison restricted to
midnight datetimes). -/
def Date.ltb (a b : Date) : Bool :=
  a.year < b.year ∨ (a.year = b.year ∧
    (a.month < b.month ∨ (a.month = b.month ∧ a.day < b.day)))

def isLeap (y : Nat) : Bool := y % 4 = 0 ∧ (y % 100 ≠ 0 ∨ y % 400 = 0)

def daysInMonth (y m : Nat) : Nat :=
  if m = 2 then (if isLeap y then 29 else 28)
  else if m ∈ [4, 6, 9, 11] then 30 else 31

/-- Parse a zero-padded ISO date `YYYY-MM-DD` with calendar validation, as
`datetime.strptime(s, "%Y-%m-%d")` does on the canonical date strings the list
store emits (month 1..12, day within the month, leap years respected; any other
shape fails). -/
def parseDate? (s : String) : Option Date :=
  match s.data with
  | [y1, y2, y3, y4, h1, m1, m2, h2, d1, d2] =>
      if y1.isDigit ∧ y2.isDigit ∧ y3.isDigit ∧ y4.isDigit ∧ h1 = '-' ∧
          m1.isDigit ∧ m2.isDigit ∧ h2 = '-' ∧ d1.isDigit ∧ d2.isDigit then
        let y := digitsVal [y1, y2, y3, y4]
        let m := digitsVal [m1, m2]
        let d := digitsVal [d1, d2]
        if 1 ≤ m ∧ m ≤ 12 ∧ 1 ≤ d ∧ d ≤ daysInMonth y m then some ⟨y, m, d⟩ else none
      else none
  | _ => none

/-- The pattern `datetime.strptime(s[:10], "%Y-%m-%d")` used throughout the
handlers: truncate to the calendar-date portion, then parse; `none` where Python
raises `ValueError`. -/
def pyParseDate (s : String) : Option Date := parseDate? ⟨s.data.take 10⟩

/-- Python truthiness of a possibly missing string (`None` and `""` are falsy). -/
def truthyStr : Option String → Bool
  | some s => ¬ s.isEmpty
  | none => false

/-- Rendering of a possibly missing string inside an f-string (`None` prints as
the text `None`). -/
def pyStr : Option String → String
  | some s => s
  | none => "None"

/-- The `fields` record of an order line (list `cmddetails`), restricted to the
fields the handlers read. -/
structure DetailFields where
  Title : Option String
  Reference : Option String
  Quantite : FieldVal
  Statut : Option String
  Site : Option String
  Comptabilise_inventaire : Option Int
deriving DecidableEq

/-- An order-line item: its SharePoint id and its `fields`. -/
structure Detail where
  id : String
  fields : DetailFields
deriving DecidableEq

/-- The `fields` record of a product (list `produits`). -/
structure ProduitFields where
  Title : Option String
  Origine : Option String
deriving DecidableEq

/-- The `fields` record of an inventory row (list `inventaire`). -/
structure InventaireFields where
  Title : Option String
  Site : Option String
  Quantite : FieldVal
  Batiment : Option String
  Emplacement : Option String
deriving DecidableEq

/-- The `fields` record of an incoming-shipment row (list `arrivagesproduits`). -/
structure ArrivageFields where
  Title : Option String
  Date : Option String
  Quantite : FieldVal
deriving DecidableEq

/-- The `fields` record of the order itself (list `commandes`), restricted to the
fields the handlers read. -/
structure CommandeFields where
  Site_Stock : Option String
  Site_Stock_second : Option String
  Date_livraison : Option String
deriving DecidableEq

/-- The in-memory usage tracker: `usage_tracker.get(key, 0.0)`.  The tracker is the
Python dict modelled as an association list where the most recent binding for a key
comes first. -/
def trackGet (t : List (String × ℚ)) (k : String) : ℚ :=
  ((t.find? (fun e => e.1 == k)).map (fun e => e.2)).getD 0

/-- Dict assignment `usage_tracker[key] = v`: the new binding shadows any older one
(lookup-equivalent to in-place overwrite). -/
def trackSet (t : List (String × ℚ)) (k : String) (v : ℚ) : List (String × ℚ) :=
  (k, v) :: t

/-- One entry of the `ruptures` summary list. -/
structure Rupture where
  reference : Option String
  raison : String
deriving DecidableEq

/-- One `graph_update_field` call on the details list: target item id and the
patched field map. -/
structure Update where
  item_id : String
  fields : List (String × Option String)
deriving DecidableEq

/-- Which branch of the per-line cascade fired (observable through the patched
status and site, recorded explicitly for the statements below). -/
inductive LineOutcome where
  | produitIntrouvable
  | reservedMain (site batiment emplacement : Option String)
  | reservedSec (site batiment emplacement : Option String)
  | arrivage
  | ruptureSdF
  | commande
deriving DecidableEq

/-- Whether an outcome is an allocation from the primary site. -/
def LineOutcome.isMain : LineOutcome → Bool
  | .reservedMain _ _ _ => true
  | _ => false

/-- The per-run snapshot the loop body of `CommandeValidation.main` closes over. -/
structure Env where
  site_stock : Option String
  site_stock_bis : Option String
  date_livraison : Option Date
  produits : List ProduitFields
  inventaire : List InventaireFields
  arrivages : List ArrivageFields
  history : List Detail

/-- Lines 250-253: on-hand quantity for `reference` at `site` (sum over matching
inventory rows). -/
def q_inv (inv : List InventaireFields) (reference site : Option String) : ℚ :=
  ((inv.filter (fun i => i.Title == reference ∧ i.Site == site)).map
    (fun i => parse_float i.Quantite)).sum

/-- Lines 255-262: building and slot of the first inventory row matching
`reference` and `site`. -/
def firstLoc (inv : List InventaireFields) (reference site : Option String) :
    Option String × Option String :=
  match inv.find? (fun i => i.Title == reference ∧ i.Site == site) with
  | some i => (i.Batiment, i.Emplacement)
  | none => (none, none)

/-- The filter of the committed-reservation sum, lines 266-269: reference matches,
status is in the committed set, site matches, and a `Sortie produits` row only
counts while its `Comptabilise_inventaire` flag is not `1`. -/
def resaCounts (l : DetailFields) (reference site : Option String) : Bool :=
  l.Reference == reference ∧
  (l.Statut == some "Reservé" ∨ l.Statut == some "Préparé" ∨
    l.Statut == some "Sortie produits") ∧
  l.Site == site ∧
  (l.Statut != some "Sortie produits" ∨ l.Comptabilise_inventaire != some 1)

/-- Lines 264-270: committed reservation quantity for `reference` at `site` over
the cross-order history. -/
def q_resa (hist : List Detail) (reference site : Option String) : ℚ :=
  ((hist.filter (fun l => resaCounts l.fields reference site)).map
    (fun l => parse_float l.fields.Quantite)).sum

/-- Lines 322-325: history quantity already in status `Arrivage` for `reference`
(no site filter in the source). -/
def q_en_cours (hist : List Detail) (reference : Option String) : ℚ :=
  ((hist.filter (fun l => l.fields.Reference == reference ∧
      l.fields.Statut == some "Arrivage")).map
    (fun l => parse_float l.fields.Quantite)).sum

/-- Body of the incoming-stock sum, lines 317-321, with the delivery date already
known to be present.  For each arrivage row whose `Title` matches and whose `Date`
is truthy, `datetime.strptime(date[:10], ...)` runs with no surrounding
try/except: an unparseable value raises (`Except.error`), aborting the whole sum;
a parsed arrival date contributes its quantity only when strictly before `D`. -/
def q_arrivGo (reference : Option String) (D : Date) :
    List ArrivageFields → Except Unit ℚ
  | [] => .ok 0
  | a :: rest =>
    if a.Title == reference ∧ truthyStr a.Date then
      match pyParseDate (a.Date.getD "") with
      | none => .error ()
      | some d =>
        match q_arrivGo reference D rest with
        | .error e => .error e
        | .ok s => .ok ((if Date.ltb d D then parse_float a.Quantite else 0) + s)
    else q_arrivGo reference D rest

/-- Lines 317-321: incoming quantity for `reference` arriving strictly before the
delivery date.  When the delivery date is absent (falsy or unparseable, lines
193-198) the per-row guard `date_livraison and ...` fails on every row, so the sum
is `0` and nothing is parsed. -/
def q_arrivE (arr : List ArrivageFields) (reference : Option String) :
    Option Date → Except Unit ℚ
  | none => .ok 0
  | some D => q_arrivGo reference D arr

/-- Tracker key `f"{reference}_main_{site_stock}"` (line 273). -/
def keyMain (reference site_stock : Option String) : String :=
  pyStr reference ++ "_main_" ++ pyStr site_stock

/-- Tracker key `f"{reference}_sec_{site_stock_bis}"` (line 306). -/
def keySec (reference site_bis : Option String) : String :=
  pyStr reference ++ "_sec_" ++ pyStr site_bis

/-- Tracker key `f"{reference}_arrivage"` (line 327). -/
def keyArriv (reference : Option String) : String :=
  pyStr reference ++ "_arrivage"

/-- Line 275: availability at the primary site, `q_inv - q_resa - deja_pris`. -/
def dispoMain (env : Env) (t : List (String × ℚ)) (reference : Option String) : ℚ :=
  q_inv env.inventaire reference env.site_stock -
    q_resa env.history reference env.site_stock -
    trackGet t (keyMain reference env.site_stock)

/-- Line 308: availability at the secondary site. -/
def dispoSec (env : Env) (t : List (String × ℚ)) (reference : Option String) : ℚ :=
  q_inv env.inventaire reference env.site_stock_bis -
    q_resa env.history reference env.site_stock_bis -
    trackGet t (keySec reference env.site_stock_bis)

/-- Line 284: `site_stock_bis and site_stock_bis != "0"` — the order declares a
usable secondary site. -/
def secondaryDeclared : Option String → Bool
  | some s => ¬ s.isEmpty ∧ s ≠ "0"
  | none => false

/-- Result of processing one order line. -/
structure LineResult where
  tracker : List (String × ℚ)
  rupture : Option Rupture
  updates : List Update
  outcome : LineOutcome
deriving DecidableEq

/-- Lines 316-338: the incoming-shipment step, reached when neither site could
cover the line.  On sufficiency the line is patched to `Arrivage` and the tracker
bucket `(reference, arrivage)` grows by the requested quantity; otherwise the line
is recorded as a shortage (the status patch is commented out in the source, so no
update is issued). -/
def arrivageStep (env : Env) (t : List (String × ℚ)) (item_id : String)
    (reference : Option String) (quantite : ℚ) : Except Unit LineResult :=
  match q_arrivE env.arrivages reference env.date_livraison with
  | .error e => .error e
  | .ok q_arriv =>
    let deja := trackGet t (keyArriv reference)
    let dispo_arriv := (q_arriv - q_en_cours env.history reference) - deja
    if dispo_arriv ≥ quantite then
      .ok ⟨trackSet t (keyArriv reference) (deja + quantite), none,
        [⟨item_id, [("Statut", some "Arrivage")]⟩], .arrivage⟩
    else
      .ok ⟨t, some ⟨reference, "stock et arrivage insuffisants"⟩, [], .ruptureSdF⟩

/-- The field map patched on a primary-site allocation (lines 278-279). -/
def mainPatch (env : Env) (reference : Option String) : List (String × Option String) :=
  [("Statut", some "Reservé"), ("Site", env.site_stock),
   ("Batiment", (firstLoc env.inventaire reference env.site_stock).1),
   ("Emplacement", (firstLoc env.inventaire reference env.site_stock).2)]

/-- The field map patched on a secondary-site allocation (lines 311-312). -/
def secPatch (env : Env) (reference : Option String) : List (String × Option String) :=
  [("Statut", some "Reservé"), ("Site", env.site_stock_bis),
   ("Batiment", (firstLoc env.inventaire reference env.site_stock_bis).1),
   ("Emplacement", (firstLoc env.inventaire reference env.site_stock_bis).2)]

/-- The loop body of `CommandeValidation.main`, lines 229-346, for one order line:
product lookup by reference, then for internally stocked (`Origine == "SDF"`)
products the cascade primary site → secondary site (when declared) → incoming
shipments → shortage, and for every other origin a single patch to `Commandé`. -/
def processDetail (env : Env) (t : List (String × ℚ)) (detail : Detail) :
    Except Unit LineResult :=
  let d := detail.fields
  let reference := d.Reference
  let quantite := parse_float d.Quantite
  match env.produits.find? (fun p => p.Title == reference) with
  | none => .ok ⟨t, some ⟨reference, "produit introuvable"⟩, [], .produitIntrouvable⟩
  | some produit =>
    if produit.Origine.getD "" = "SDF" then
      if dispoMain env t reference ≥ quantite then
        .ok ⟨trackSet t (keyMain reference env.site_stock)
              (trackGet t (keyMain reference env.site_stock) + quantite), none,
          [⟨detail.id, mainPatch env reference⟩],
          .reservedMain env.site_stock (firstLoc env.inventaire reference env.site_stock).1
            (firstLoc env.inventaire reference env.site_stock).2⟩
      else if secondaryDeclared env.site_stock_bis then
        if dispoSec env t reference ≥ quantite then
          .ok ⟨trackSet t (keySec reference env.site_stock_bis)
                (trackGet t (keySec reference env.site_stock_bis) + quantite), none,
            [⟨detail.id, secPatch env reference⟩],
            .reservedSec env.site_stock_bis
              (firstLoc env.inventaire reference env.site_stock_bis).1
              (firstLoc env.inventaire reference env.site_stock_bis).2⟩
        else arrivageStep env t detail.id reference quantite
      else arrivageStep env t detail.id reference quantite
    else
      .ok ⟨t, none, [⟨detail.id, [("Statut", some "Commandé")]⟩], .commande⟩

/-- Accumulated result of the per-line loop. -/
structure RunResult where
  tracker : List (String × ℚ)
  ruptures : List Rupture
  updates : List Update
  outcomes : List LineOutcome
deriving DecidableEq

/-- The loop of lines 229-346 over the order lines, threading the tracker and
accumulating shortages and issued patches; an exception inside a line (the
unparseable arrivage date) aborts the loop carrying the updates already issued. -/
def runLoop (env : Env) (t : List (String × ℚ)) (ruptures : List Rupture)
    (updates : List Update) (outcomes : List LineOutcome) :
    List Detail → Except (List Update) RunResult
  | [] => .ok ⟨t, ruptures, updates, outcomes⟩
  | d :: ds =>
    match processDetail env t d with
    | .error _ => .error updates
    | .ok r =>
        runLoop env r.tracker (ruptures ++ r.rupture.toList) (updates ++ r.updates)
          (outcomes ++ [r.outcome]) ds

/-- An apostrophe, built from its code point so it can appear inside the modelled
French messages. -/
def apos : String := String.singleton (Char.ofNat 39)

/-- Consecutive slices `l[i : i + n]` for `i = 0, n, 2n, ...`, exactly the slices
the loop `for i in range(0, len(values), chunk_size)` takes.  A zero chunk size
(where Python `range` would raise) yields no slices; every call site passes 20. -/
def chunksOf {α : Type} (n : Nat) (l : List α) : List (List α) :=
  if h : l.isEmpty ∨ n = 0 then [] else l.take n :: chunksOf n (l.drop n)
termination_by l.length
decreasing_by
  have h1 : ¬ l.isEmpty := fun hh => h (Or.inl hh)
  have h2 : n ≠ 0 := fun hh => h (Or.inr hh)
  have h3 : l ≠ [] := by simpa using h1
  have hl : 0 < l.length := List.length_pos.mpr h3
  simp only [List.length_drop]
  omega

/-- The filter expression built for one chunk (line 143):
`" or ".join(f"{field_name} eq '{v}'" for v in chunk)`. -/
def clauseFor (field_name : String) (chunk : List String) : String :=
  String.intercalate " or "
    (chunk.map (fun v => field_name ++ " eq " ++ apos ++ v ++ apos))

/-- `split_filter_queries` (lines 139-145): one disjunctive filter expression per
slice of at most `chunk_size` values. -/
def split_filter_queries (field_name : String) (values : List String)
    (chunk_size : Nat) : List String :=
  if h : values.isEmpty ∨ chunk_size = 0 then [] else
    clauseFor field_name (values.take chunk_size) ::
      split_filter_queries field_name (values.drop chunk_size) chunk_size
termination_by values.length
decreasing_by
  have h1 : ¬ values.isEmpty := fun hh => h (Or.inl hh)
  have h2 : chunk_size ≠ 0 := fun hh => h (Or.inr hh)
  have h3 : values ≠ [] := by simpa using h1
  have hl : 0 < values.length := List.length_pos.mpr h3
  simp only [List.length_drop]
  omega

/-- Line 213: the distinct truthy `Title` values of the order lines.  Python
builds a `set`, whose iteration order is unspecified; the model keeps one
occurrence of each value (order irrelevant to every use). -/
def references_utiles (details : List Detail) : List String :=
  (details.filterMap (fun d =>
    match d.fields.Title with
    | some ti => if ti.isEmpty then none else some ti
    | none => none)).dedup

/-- One call against the external world (Key Vault, token endpoint, Graph),
recorded in issue order. -/
inductive ExtCall where
  | getSecret (name : String)
  | getToken
  | getSiteInfo
  | getItem (list item : String)
  | listItems (list : String)
  | filteredItems (list filter_expr : String)
  | updateField (list item : String) (fields : List (String × Option String))
deriving DecidableEq

/-- The JSON body returned on completion (lines 356-361). -/
structure Retour where
  commande_id : String
  statut : String
  ruptures : List Rupture
  nb_produits_commande : Nat
deriving DecidableEq

/-- An HTTP response of the Azure function: status code plus body. -/
inductive Response where
  | r200 (body : Retour)
  | r400 (msg : String)
  | r404 (msg : String)
  | r500 (msg : String)
deriving DecidableEq

/-- The request body as far as the handlers read it: the `commande_id` field of
the JSON object (possibly absent). -/
structure ReqBody where
  commande_id : Option String
deriving DecidableEq

/-- The external state a run reads: token acquisition outcome, the order item (or
`none` for 404), the collections, and the response to each history filter query. -/
structure World where
  token : Option String
  commandeItem : Option CommandeFields
  details : List Detail
  produits : List ProduitFields
  inventaire : List InventaireFields
  arrivages : List ArrivageFields
  historyResp : String → List Detail

/-- The Key Vault secrets fetched at lines 165-173, in order. -/
def secretNames : List String :=
  ["tenantid", "clientid", "appsecret", "siteid", "cmdlistid", "cmddetailslistid",
   "produitslistid", "inventairelistid", "arrivagesproduitslistid"]

/-- Lines 218-221: one filtered history query per clause, results concatenated in
clause order. -/
def fetchHistory (w : World) (clauses : List String) : List Detail :=
  (clauses.map w.historyResp).flatten

/-- Lines 193-198: the delivery date is kept only when truthy and parseable as
`strptime(s[:10], "%Y-%m-%d")`; otherwise it is `None` (or stays falsy), which the
incoming-stock guard then skips. -/
def parseDl : Option String → Option Date
  | none => none
  | some s => if s.isEmpty then none else pyParseDate s

/-- The run snapshot assembled from the order fields and the fetched data. -/
def mkEnv (c : CommandeFields) (w : World) (hist : List Detail) : Env :=
  ⟨c.Site_Stock, c.Site_Stock_second, parseDl c.Date_livraison,
    w.produits, w.inventaire, w.arrivages, hist⟩

def msgParamRequis : String := "Paramètre " ++ apos ++ "commande_id" ++ apos ++ " requis"

def msgAuthFailed : String := "Échec de l" ++ apos ++ "authentification Graph"

/-- The message of the outer handler (line 371), `f"Erreur serveur : {str(e)}"`;
the exception text itself is not modelled beyond its class. -/
def msgServerError (e : String) : String := "Erreur serveur : " ++ e

/-- `CommandeValidation.main` (lines 156-371).  `body = none` models a request
whose body is not valid JSON (`req.get_json()` raises, caught by the outer
handler).  The second component records every external call in issue order. -/
def mainValidation (body : Option ReqBody) (w : World) : Response × List ExtCall :=
  match body with
  | none => (.r500 (msgServerError "ValueError"), [])
  | some b =>
    if ¬ truthyStr b.commande_id then (.r400 msgParamRequis, [])
    else
      let cid := pyStr b.commande_id
      let calls0 := secretNames.map ExtCall.getSecret ++ [ExtCall.getToken]
      match w.token with
      | none => (.r500 msgAuthFailed, calls0)
      | some _ =>
        let calls1 := calls0 ++ [ExtCall.getSiteInfo, ExtCall.getItem "commandes" cid]
        match w.commandeItem with
        | none => (.r404 "Commande introuvable", calls1)
        | some c =>
          let details := w.details
          let calls2 := calls1 ++
            [ExtCall.filteredItems "cmddetails" ("fields/CMD_ID eq " ++ cid),
             ExtCall.listItems "produits", ExtCall.listItems "inventaire",
             ExtCall.listItems "arrivages"]
          let clauses := split_filter_queries "fields/Title" (references_utiles details) 20
          let calls3 := calls2 ++ clauses.map (ExtCall.filteredItems "cmddetails")
          let env := mkEnv c w (fetchHistory w clauses)
          match runLoop env [] [] [] [] details with
          | .error updatesSoFar =>
              (.r500 (msgServerError "ValueError"),
               calls3 ++ updatesSoFar.map (fun u => ExtCall.updateField "cmddetails" u.item_id u.fields))
          | .ok res =>
              let statut_final := if res.ruptures.isEmpty then "OK" else "Rupture"
              let cmdPatch : List (String × Option String) :=
                if res.ruptures.isEmpty then [("Statut", some "Validé")]
                else [("Statut", some "Validé (Rupture SdF)")]
              (.r200 ⟨cid, statut_final, res.ruptures, details.length⟩,
               calls3 ++ res.updates.map (fun u => ExtCall.updateField "cmddetails" u.item_id u.fields)
                 ++ [ExtCall.updateField "commandes" cid cmdPatch])

/-- A straight-line Python statement abstracted to name binding: an assignment
binding `target` after reading `uses`, or a bare expression reading `uses`. -/
inductive PyStmt where
  | assign (target : String) (uses : List String)
  | expr (uses : List String)
deriving DecidableEq

/-- Sequential execution of straight-line statements over the set of bound local
names: reading a name that is not bound raises `NameError` on that name. -/
def runStmts (bound : List String) : List PyStmt → Except String (List String)
  | [] => .ok bound
  | .assign x uses :: rest =>
    match uses.find? (fun u => ¬ bound.contains u) with
    | some u => .error u
    | none => runStmts (x :: bound) rest
  | .expr uses :: rest =>
    match uses.find? (fun u => ¬ bound.contains u) with
    | some u => .error u
    | none => runStmts bound rest

/-- The straight-line prefix of `CommandeVerification.main` (lines 272-295).  The
initialization the comments at lines 274-279 allude to is absent from the file:
before the loop, the body only assigns `usage_tracker` (line 284) and `ruptures`
(line 287), then `nb_lignes_commande = len(details)` (line 288) reads the
never-assigned `details`. -/
def verificationMainStmts : List PyStmt :=
  [.assign "usage_tracker" [],
   .assign "ruptures" [],
   .assign "nb_lignes_commande" ["details"]]

/-- The local names bound when `CommandeVerification.main` starts: only its
parameter. -/
def verificationBound : List String := ["req"]

/-- Python `NameError` text, `name 'x' is not defined`. -/
def nameErrorMsg (x : String) : String :=
  "name " ++ apos ++ x ++ apos ++ " is not defined"

/-- The body of `CommandeVerification.main` up to its first effect.  Running the
statement prefix raises `NameError` before any external call can be issued; the
`ok` branch (never reached, see `runStmts verificationBound verificationMainStmts`)
would continue into the loop of lines 290-465. -/
def mainVerification (_req : ReqBody) : Response × List ExtCall :=
  match runStmts verificationBound verificationMainStmts with
  | .error n => (.r500 (msgServerError (nameErrorMsg n)), [])
  | .ok _ => (.r500 (msgServerError ""), [])

/-- The names that are assignment targets anywhere in the body of
`CommandeVerification.main` (lines 272-469), read off the source: loop and
comprehension variables included. -/
def verificationAssigned : List String :=
  ["usage_tracker", "ruptures", "nb_lignes_commande", "detail", "d", "reference",
   "item_id", "quantite", "statut", "produit", "origine", "q_inv", "i", "batiment",
   "emplacement", "l", "q_resa", "key_main", "deja_pris_ce_tour", "dispo",
   "q_inv_bis", "batiment_bis", "emplacement_bis", "q_resa_bis", "key_sec",
   "deja_pris_sec", "dispo_bis", "a", "q_arriv", "q_en_cours", "key_arriv",
   "deja_pris_arriv", "dispo_arriv", "u", "q_uko", "key_uko", "deja_pris_uko",
   "dispo_uko", "statut_final", "retour", "e"]

/-- The free names of `CommandeVerification.main` the claim lists: each is read by
the body yet never assigned, so its first evaluation raises `NameError`. -/
def verificationClaimedUnassigned : List String :=
  ["details", "commande_id", "site_stock", "produits", "inventaire", "arrivages",
   "all_details", "ukobas", "token", "site_id", "details_list_id"]

/-- A physical line of `CommandeReception/__init__.py`, abstracted to what the
CPython tokenizer keeps: a statement or a compound-statement header at some
indentation, or a comment/blank line (both discarded). -/
inductive PyLine where
  | stmtLine (indent : Nat)
  | headerLine (indent : Nat)
  | commentLine
  | blankLine
deriving DecidableEq

/-- Lines 458-463 of `CommandeReception/__init__.py`:
line 458 `ruptures.append(...)` (indent 20), line 459 `else:` (indent 16),
line 460 a comment, line 461 blank, line 462 `else:` (indent 12),
line 463 `logging.info(...)` (indent 16). -/
def receptionLines : List PyLine :=
  [.stmtLine 20, .headerLine 16, .commentLine, .blankLine, .headerLine 12,
   .stmtLine 16]

/-- Indentation of the next tokenizer-visible line, skipping comments and blanks. -/
def firstCodeIndent : List PyLine → Option Nat
  | [] => none
  | .commentLine :: rest => firstCodeIndent rest
  | .blankLine :: rest => firstCodeIndent rest
  | .stmtLine i :: _ => some i
  | .headerLine i :: _ => some i

/-- Whether some compound-statement header in the lines has an empty suite: the
next tokenizer-visible line after it does not indent past the header (or the file
ends).  CPython requires at least one statement in a suite, so such a header makes
the module fail to compile (`IndentationError: expected an indented block`). -/
def headerHasEmptySuite : List PyLine → Bool
  | [] => false
  | .headerLine i :: rest =>
    (match firstCodeIndent rest with
     | none => true
     | some j => decide (j ≤ i)) || headerHasEmptySuite rest
  | _ :: rest => headerHasEmptySuite rest

/-- Whether the `CommandeReception` module compiles: it does not, because the
`else:` at line 459 has an empty suite (its block holds only a comment and a blank
line before the dedented `else:` at 462). -/
def receptionModuleParses : Bool := ¬ headerHasEmptySuite receptionLines

/-- The statements of the shortage branch of `CommandeReception.main`
(lines 406-427), abstracted to name binding: `q_inv =` (407), `q_resa =` (412),
the four logging calls of lines 421-425 — the last of which reads `dispo` — and
only then `dispo = q_inv - q_resa` (line 427). -/
def receptionShortageBranchStmts : List PyStmt :=
  [.assign "q_inv" ["inventaire", "reference", "site_stock"],
   .assign "q_resa" ["all_details", "reference", "site_stock"],
   .expr [],
   .expr ["site_stock"],
   .expr ["q_inv"],
   .expr ["q_resa"],
   .expr ["dispo"],
   .assign "dispo" ["q_inv", "q_resa"]]

/-- The local names bound when control reaches line 406 of
`CommandeReception.main` (from the assignments of lines 274-404). -/
def receptionBoundAt406 : List String :=
  ["req", "body", "commande_id", "site_recept", "batiment_recept",
   "emplacement_recept", "tenant_id", "client_id", "client_secret", "site_id",
   "commandes_list_id", "details_list_id", "produits_list_id",
   "inventaire_list_id", "arrivages_list_id", "token", "nom_site", "nom_liste",
   "commande_item", "commande", "site_stock", "site_stock_bis", "date_livraison",
   "details", "produits", "inventaire", "arrivages", "references_utiles",
   "filter_clauses", "all_details", "nb_lignes_commande", "ruptures", "detail",
   "d", "reference", "item_id", "quantite", "statut", "produit", "origine"]

/-- The incoming-availability sum in the words of the spec: quantities of the
incoming shipments for the reference whose (parsed) arrival date lies strictly
before the delivery date `D`.  Stated separately from `q_arrivGo` (which follows
the source) so the two can be compared. -/
def incomingSpec (arr : List ArrivageFields) (reference : Option String) (D : Date) : ℚ :=
  ((arr.filter (fun a => a.Title == reference && truthyStr a.Date &&
      (match pyParseDate (a.Date.getD "") with
       | some d => Date.ltb d D
       | none => false))).map (fun a => parse_float a.Quantite)).sum

end SDFStock

namespace SDFStock

lemma trackGet_trackSet_self (t : List (String × ℚ)) (k : String) (v : ℚ) :
    trackGet (trackSet t k v) k = v := by
  simp [trackGet, trackSet, List.find?]

lemma processDetail_main_branch (env : Env) (t : List (String × ℚ)) (d : Detail)
    (p : ProduitFields)
    (hp : env.produits.find? (fun p => p.Title == d.fields.Reference) = some p)
    (hsdf : p.Origine.getD "" = "SDF")
    (hge : dispoMain env t d.fields.Reference ≥ parse_float d.fields.Quantite) :
    processDetail env t d =
      .ok ⟨trackSet t (keyMain d.fields.Reference env.site_stock)
            (trackGet t (keyMain d.fields.Reference env.site_stock) + parse_float d.fields.Quantite),
          none, [⟨d.id, mainPatch env d.fields.Reference⟩],
          .reservedMain env.site_stock
            (firstLoc env.inventaire d.fields.Reference env.site_stock).1
            (firstLoc env.inventaire d.fields.Reference env.site_stock).2⟩ := by
  simp only [processDetail, hp]
  rw [if_pos hsdf, if_pos hge]

lemma processDetail_sec_branch (env : Env) (t : List (String × ℚ)) (d : Detail)
    (p : ProduitFields)
    (hp : env.produits.find? (fun p => p.Title == d.fields.Reference) = some p)
    (hsdf : p.Origine.getD "" = "SDF")
    (hlt : ¬ dispoMain env t d.fields.Reference ≥ parse_float d.fields.Quantite)
    (hdecl : secondaryDeclared env.site_stock_bis = true)
    (hge2 : dispoSec env t d.fields.Reference ≥ parse_float d.fields.Quantite) :
    processDetail env t d =
      .ok ⟨trackSet t (keySec d.fields.Reference env.site_stock_bis)
            (trackGet t (keySec d.fields.Reference env.site_stock_bis) + parse_float d.fields.Quantite),
          none, [⟨d.id, secPatch env d.fields.Reference⟩],
          .reservedSec env.site_stock_bis
            (firstLoc env.inventaire d.fields.Reference env.site_stock_bis).1
            (firstLoc env.inventaire d.fields.Reference env.site_stock_bis).2⟩ := by
  simp only [processDetail, hp]
  rw [if_pos hsdf, if_neg hlt]
  simp only [hdecl, if_true]
  rw [if_pos hge2]

lemma processDetail_reaches_arrivage (env : Env) (t : List (String × ℚ)) (d : Detail)
    (p : ProduitFields)
    (hp : env.produits.find? (fun p => p.Title == d.fields.Reference) = some p)
    (hsdf : p.Origine.getD "" = "SDF")
    (hlt : ¬ dispoMain env t d.fields.Reference ≥ parse_float d.fields.Quantite)
    (hsec : secondaryDeclared env.site_stock_bis = false ∨
      ¬ dispoSec env t d.fields.Reference ≥ parse_float d.fields.Quantite) :
    processDetail env t d = arrivageStep env t d.id d.fields.Reference (parse_float d.fields.Quantite) := by
  simp only [processDetail, hp]
  rw [if_pos hsdf, if_neg hlt]
  rcases hsec with hsec | hsec
  · rw [hsec, if_neg (by simp)]
  · by_cases hdecl : secondaryDeclared env.site_stock_bis = true
    · simp only [hdecl, if_true]
      rw [if_neg hsec]
    · simp only [Bool.not_eq_true] at hdecl
      rw [hdecl, if_neg (by simp)]

lemma arrivageStep_not_main (env : Env) (t : List (String × ℚ)) (iid : String)
    (ref : Option String) (q : ℚ) (res : LineResult)
    (h : arrivageStep env t iid ref q = .ok res) : res.outcome.isMain = false := by
  unfold arrivageStep at h
  cases hq : q_arrivE env.arrivages ref env.date_livraison with
  | error e => rw [hq] at h; cases h
  | ok v =>
    rw [hq] at h
    dsimp only at h
    split at h <;> (cases h; rfl)

lemma processDetail_not_main (env : Env) (t : List (String × ℚ)) (d : Detail)
    (p : ProduitFields)
    (hp : env.produits.find? (fun p => p.Title == d.fields.Reference) = some p)
    (hsdf : p.Origine.getD "" = "SDF")
    (hlt : ¬ dispoMain env t d.fields.Reference ≥ parse_float d.fields.Quantite) :
    ∀ res : LineResult, processDetail env t d = .ok res → res.outcome.isMain = false := by
  intro res h
  simp only [processDetail, hp] at h
  rw [if_pos hsdf, if_neg hlt] at h
  by_cases hdecl : secondaryDeclared env.site_stock_bis = true
  · simp only [hdecl, if_true] at h
    by_cases hge2 : dispoSec env t d.fields.Reference ≥ parse_float d.fields.Quantite
    · rw [if_pos hge2] at h; cases h; rfl
    · rw [if_neg hge2] at h; exact arrivageStep_not_main _ _ _ _ _ _ h
  · simp only [Bool.not_eq_true] at hdecl
    rw [hdecl, if_neg (by simp)] at h
    exact arrivageStep_not_main _ _ _ _ _ _ h

end SDFStock

namespace SDFStock

/-- C3: a reservation-history line counts in the committed-reservation sum for a
given reference and site exactly when its reference and site match, its status is
one of Reservé, Préparé, Sortie produits, and — for Sortie produits specifically —
its Comptabilise_inventaire flag is not 1. -/
theorem resaCounts_characterization (l : DetailFields) (reference site : Option String) :
    resaCounts l reference site = true ↔
      (l.Reference = reference ∧ l.Site = site ∧
        (l.Statut = some "Reservé" ∨ l.Statut = some "Préparé" ∨
          l.Statut = some "Sortie produits") ∧
        (l.Statut = some "Sortie produits" → l.Comptabilise_inventaire ≠ some 1)) := by
  simp only [resaCounts, decide_eq_true_eq, bne_iff_ne, ne_eq, beq_iff_eq]
  tauto

theorem resaCounts_characterization_witness :
    resaCounts ⟨none, some "R1", .num 1, some "Sortie produits", some "S", some 0⟩
      (some "R1") (some "S") = true :=
  (resaCounts_characterization _ _ _).mpr (by decide)

/-- C10: a line whose product origin is not exactly SDF (including an absent
origin, which defaults to the empty string) takes the external branch: only a
patch of its status to Commandé is issued, the tracker is untouched, no shortage
is recorded, and the result does not depend on the inventory, incoming-shipment
or history data. -/
theorem nonSDF_external_branch (env : Env) (t : List (String × ℚ)) (d : Detail)
    (p : ProduitFields)
    (hp : env.produits.find? (fun p => p.Title == d.fields.Reference) = some p)
    (ho : p.Origine.getD "" ≠ "SDF") :
    processDetail env t d =
      .ok ⟨t, none, [⟨d.id, [("Statut", some "Commandé")]⟩], .commande⟩ ∧
    (∀ inv arr hist,
      processDetail { env with inventaire := inv, arrivages := arr, history := hist } t d =
        .ok ⟨t, none, [⟨d.id, [("Statut", some "Commandé")]⟩], .commande⟩) := by
  constructor
  · simp only [processDetail, hp]
    rw [if_neg ho]
  · intro inv arr hist
    have hp2 : ({ env with inventaire := inv, arrivages := arr, history := hist } : Env).produits.find?
        (fun p => p.Title == d.fields.Reference) = some p := hp
    simp only [processDetail, hp2]
    rw [if_neg ho]

theorem nonSDF_external_branch_witness :
    (([⟨some "R1", none⟩] : List ProduitFields).find?
        (fun p => p.Title == (some "R1" : Option String)) = some ⟨some "R1", none⟩) ∧
    processDetail ⟨some "S", none, none, [⟨some "R1", none⟩], [], [], []⟩ []
        ⟨"7", ⟨some "R1", some "R1", .num 3, none, none, none⟩⟩ =
      .ok ⟨[], none, [⟨"7", [("Statut", some "Commandé")]⟩], .commande⟩ :=
  ⟨by decide,
    (nonSDF_external_branch ⟨some "S", none, none, [⟨some "R1", none⟩], [], [], []⟩ []
      ⟨"7", ⟨some "R1", some "R1", .num 3, none, none, none⟩⟩ ⟨some "R1", none⟩
      (by decide) (by decide)).1⟩

end SDFStock

namespace SDFStock

/-- C2: for an internally stocked (SDF) product the cascade is evaluated in strict
order with short-circuiting.  If the primary site covers the requested quantity
the line is allocated from primary, and the result is independent of the
incoming-shipment data and of the declared secondary site; otherwise the
secondary site is consulted only when declared (non-empty and not the sentinel
zero) and allocates when it covers the quantity; otherwise control reaches the
incoming-shipment step. -/
theorem sdf_cascade_strict_order (env : Env) (t : List (String × ℚ)) (d : Detail)
    (p : ProduitFields)
    (hp : env.produits.find? (fun p => p.Title == d.fields.Reference) = some p)
    (hsdf : p.Origine.getD "" = "SDF") :
    (dispoMain env t d.fields.Reference ≥ parse_float d.fields.Quantite →
      processDetail env t d =
        .ok ⟨trackSet t (keyMain d.fields.Reference env.site_stock)
              (trackGet t (keyMain d.fields.Reference env.site_stock) + parse_float d.fields.Quantite),
            none, [⟨d.id, mainPatch env d.fields.Reference⟩],
            .reservedMain env.site_stock
              (firstLoc env.inventaire d.fields.Reference env.site_stock).1
              (firstLoc env.inventaire d.fields.Reference env.site_stock).2⟩ ∧
      (∀ arr sb, processDetail { env with arrivages := arr, site_stock_bis := sb } t d =
        processDetail env t d)) ∧
    (¬ dispoMain env t d.fields.Reference ≥ parse_float d.fields.Quantite →
      secondaryDeclared env.site_stock_bis = true →
      dispoSec env t d.fields.Reference ≥ parse_float d.fields.Quantite →
      processDetail env t d =
        .ok ⟨trackSet t (keySec d.fields.Reference env.site_stock_bis)
              (trackGet t (keySec d.fields.Reference env.site_stock_bis) + parse_float d.fields.Quantite),
            none, [⟨d.id, secPatch env d.fields.Reference⟩],
            .reservedSec env.site_stock_bis
              (firstLoc env.inventaire d.fields.Reference env.site_stock_bis).1
              (firstLoc env.inventaire d.fields.Reference env.site_stock_bis).2⟩) ∧
    (¬ dispoMain env t d.fields.Reference ≥ parse_float d.fields.Quantite →
      (secondaryDeclared env.site_stock_bis = false ∨
        ¬ dispoSec env t d.fields.Reference ≥ parse_float d.fields.Quantite) →
      processDetail env t d =
        arrivageStep env t d.id d.fields.Reference (parse_float d.fields.Quantite)) := by
  refine ⟨fun hge => ⟨processDetail_main_branch env t d p hp hsdf hge, ?_⟩,
    fun hlt hdecl hge2 => processDetail_sec_branch env t d p hp hsdf hlt hdecl hge2,
    fun hlt hsec => processDetail_reaches_arrivage env t d p hp hsdf hlt hsec⟩
  intro arr sb
  have hd2 : dispoMain { env with arrivages := arr, site_stock_bis := sb } t d.fields.Reference =
      dispoMain env t d.fields.Reference := rfl
  have h1 := processDetail_main_branch env t d p hp hsdf hge
  have h2 := processDetail_main_branch { env with arrivages := arr, site_stock_bis := sb } t d p hp hsdf
    (by rw [hd2]; exact hge)
  rw [h1, h2]
  rfl

theorem sdf_cascade_strict_order_witness :
    (([⟨some "R1", some "SDF"⟩] : List ProduitFields).find?
        (fun p => p.Title == (some "R1" : Option String)) = some ⟨some "R1", some "SDF"⟩) ∧
    (dispoMain ⟨some "S", none, none, [⟨some "R1", some "SDF"⟩],
        [⟨some "R1", some "S", .num 10, some "B", some "E"⟩], [], []⟩ [] (some "R1") ≥
      parse_float (.num 6)) ∧
    processDetail ⟨some "S", none, none, [⟨some "R1", some "SDF"⟩],
        [⟨some "R1", some "S", .num 10, some "B", some "E"⟩], [], []⟩ []
        ⟨"1", ⟨some "R1", some "R1", .num 6, none, none, none⟩⟩ =
      .ok ⟨trackSet [] (keyMain (some "R1") (some "S"))
            (trackGet [] (keyMain (some "R1") (some "S")) + parse_float (.num 6)),
          none,
          [⟨"1", mainPatch ⟨some "S", none, none, [⟨some "R1", some "SDF"⟩],
              [⟨some "R1", some "S", .num 10, some "B", some "E"⟩], [], []⟩ (some "R1")⟩],
          .reservedMain (some "S") (some "B") (some "E")⟩ := by
  have hge : dispoMain ⟨some "S", none, none, [⟨some "R1", some "SDF"⟩],
      [⟨some "R1", some "S", .num 10, some "B", some "E"⟩], [], []⟩ [] (some "R1") ≥
      parse_float (.num 6) := by
    norm_num [dispoMain, q_inv, q_resa, trackGet, parse_float, resaCounts, List.filter]
  refine ⟨by decide, hge, ?_⟩
  have h := (sdf_cascade_strict_order ⟨some "S", none, none, [⟨some "R1", some "SDF"⟩],
      [⟨some "R1", some "S", .num 10, some "B", some "E"⟩], [], []⟩ []
      ⟨"1", ⟨some "R1", some "R1", .num 6, none, none, none⟩⟩ ⟨some "R1", some "SDF"⟩
      (by decide) (by decide)).1 hge
  rw [h.1]
  have : firstLoc [⟨some "R1", some "S", .num 10, some "B", some "E"⟩] (some "R1") (some "S") =
      (some "B", some "E") := by decide
  simp [this]

end SDFStock

namespace SDFStock

/-- C1: two lines of the same run requesting the same SDF reference, each of which
fits the primary availability alone while their sum exceeds it.  The first line is
allocated from primary; the tracker bucket for (reference, primary site) grows by
its quantity before the second line is evaluated, so the second line sees the
availability reduced by exactly that quantity and cannot be allocated from
primary. -/
theorem tracker_prevents_double_allocation (env : Env) (t : List (String × ℚ))
    (d1 d2 : Detail) (p : ProduitFields) (r : Option String)
    (h1 : d1.fields.Reference = r) (h2 : d2.fields.Reference = r)
    (hp : env.produits.find? (fun p => p.Title == r) = some p)
    (hsdf : p.Origine.getD "" = "SDF")
    (hfit1 : dispoMain env t r ≥ parse_float d1.fields.Quantite)
    (hfit2 : dispoMain env t r ≥ parse_float d2.fields.Quantite)
    (hover : dispoMain env t r < parse_float d1.fields.Quantite + parse_float d2.fields.Quantite) :
    processDetail env t d1 =
      .ok ⟨trackSet t (keyMain r env.site_stock)
            (trackGet t (keyMain r env.site_stock) + parse_float d1.fields.Quantite),
          none, [⟨d1.id, mainPatch env r⟩],
          .reservedMain env.site_stock (firstLoc env.inventaire r env.site_stock).1
            (firstLoc env.inventaire r env.site_stock).2⟩ ∧
    (∀ t1, t1 = trackSet t (keyMain r env.site_stock)
        (trackGet t (keyMain r env.site_stock) + parse_float d1.fields.Quantite) →
      trackGet t1 (keyMain r env.site_stock) =
        trackGet t (keyMain r env.site_stock) + parse_float d1.fields.Quantite ∧
      dispoMain env t1 r = dispoMain env t r - parse_float d1.fields.Quantite ∧
      (∀ res : LineResult, processDetail env t1 d2 = .ok res → res.outcome.isMain = false)) := by
  have hp1 : env.produits.find? (fun p => p.Title == d1.fields.Reference) = some p := by
    rw [h1]; exact hp
  have hp2 : env.produits.find? (fun p => p.Title == d2.fields.Reference) = some p := by
    rw [h2]; exact hp
  constructor
  · have := processDetail_main_branch env t d1 p hp1 hsdf (by rw [h1]; exact hfit1)
    rw [this, h1]
  · intro t1 ht1
    have hkey : trackGet t1 (keyMain r env.site_stock) =
        trackGet t (keyMain r env.site_stock) + parse_float d1.fields.Quantite := by
      rw [ht1]; exact trackGet_trackSet_self _ _ _
    have hdm : dispoMain env t1 r = dispoMain env t r - parse_float d1.fields.Quantite := by
      simp only [dispoMain, hkey]; ring
    refine ⟨hkey, hdm, ?_⟩
    have hlt2 : ¬ dispoMain env t1 d2.fields.Reference ≥ parse_float d2.fields.Quantite := by
      rw [h2, hdm]
      intro hcon
      have := hover
      linarith
    exact processDetail_not_main env t1 d2 p hp2 hsdf hlt2

theorem tracker_prevents_double_allocation_witness :
    (([⟨some "R1", some "SDF"⟩] : List ProduitFields).find?
        (fun p => p.Title == (some "R1" : Option String)) = some ⟨some "R1", some "SDF"⟩) ∧
    (dispoMain ⟨some "S", none, none, [⟨some "R1", some "SDF"⟩],
        [⟨some "R1", some "S", .num 10, none, none⟩], [], []⟩ [] (some "R1") ≥ 6) ∧
    (dispoMain ⟨some "S", none, none, [⟨some "R1", some "SDF"⟩],
        [⟨some "R1", some "S", .num 10, none, none⟩], [], []⟩ [] (some "R1") < 6 + 6) ∧
    (∀ res : LineResult,
      processDetail ⟨some "S", none, none, [⟨some "R1", some "SDF"⟩],
          [⟨some "R1", some "S", .num 10, none, none⟩], [], []⟩
        (trackSet [] (keyMain (some "R1") (some "S"))
          (trackGet [] (keyMain (some "R1") (some "S")) +
            parse_float (FieldVal.num 6)))
        ⟨"2", ⟨some "R1", some "R1", .num 6, none, none, none⟩⟩ = .ok res →
      res.outcome.isMain = false) := by
  have hd : dispoMain ⟨some "S", none, none, [⟨some "R1", some "SDF"⟩],
      [⟨some "R1", some "S", .num 10, none, none⟩], [], []⟩ [] (some "R1") = 10 := by
    norm_num [dispoMain, q_inv, q_resa, trackGet, parse_float, resaCounts, List.filter]
  have hfit : dispoMain ⟨some "S", none, none, [⟨some "R1", some "SDF"⟩],
      [⟨some "R1", some "S", .num 10, none, none⟩], [], []⟩ [] (some "R1") ≥
      parse_float (FieldVal.num 6) := by rw [hd]; norm_num [parse_float]
  have hover : dispoMain ⟨some "S", none, none, [⟨some "R1", some "SDF"⟩],
      [⟨some "R1", some "S", .num 10, none, none⟩], [], []⟩ [] (some "R1") <
      parse_float (FieldVal.num 6) + parse_float (FieldVal.num 6) := by
    rw [hd]; norm_num [parse_float]
  have h := (tracker_prevents_double_allocation
      ⟨some "S", none, none, [⟨some "R1", some "SDF"⟩],
        [⟨some "R1", some "S", .num 10, none, none⟩], [], []⟩ []
      ⟨"1", ⟨some "R1", some "R1", .num 6, none, none, none⟩⟩
      ⟨"2", ⟨some "R1", some "R1", .num 6, none, none, none⟩⟩
      ⟨some "R1", some "SDF"⟩ (some "R1") rfl rfl (by decide) (by decide)
      hfit hfit hover).2 _ rfl
  refine ⟨by decide, by rw [hd]; norm_num, by rw [hd]; norm_num, h.2.2⟩

end SDFStock

namespace SDFStock

lemma q_arrivGo_ok_of_parseable (reference : Option String) (D : Date) :
    ∀ arr : List ArrivageFields,
      (∀ a ∈ arr, (a.Title == reference) = true → truthyStr a.Date = true →
        (pyParseDate (a.Date.getD "")).isSome = true) →
      q_arrivGo reference D arr = .ok (incomingSpec arr reference D) := by
  intro arr
  induction arr with
  | nil => intro _; simp [q_arrivGo, incomingSpec]
  | cons a rest ih =>
    intro h
    have hrest := fun b hb => h b (List.mem_cons_of_mem a hb)
    by_cases hc : ((a.Title == reference) = true ∧ truthyStr a.Date = true)
    · have hps := h a (List.mem_cons_self a rest) hc.1 hc.2
      cases hparse : pyParseDate (a.Date.getD "") with
      | none => rw [hparse] at hps; cases hps
      | some dd =>
        simp only [q_arrivGo, if_pos hc, hparse, ih hrest]
        by_cases hlt : Date.ltb dd D = true
        · simp [incomingSpec, hc.1, hc.2, hparse, hlt]
        · simp only [Bool.not_eq_true] at hlt
          simp [incomingSpec, hc.1, hc.2, hparse, hlt]
    · have hfalse : (a.Title == reference && truthyStr a.Date &&
          (match pyParseDate (a.Date.getD "") with
           | some d => Date.ltb d D
           | none => false)) = false := by
        cases hA : (a.Title == reference) <;> cases hB : truthyStr a.Date <;>
          simp_all
      simp only [q_arrivGo, if_neg hc, ih hrest]
      simp [incomingSpec, List.filter_cons, hfalse]

/-- C4: with every relevant arrival date parseable, the incoming branch computes
exactly the availability the spec describes — incoming quantities dated strictly
before the delivery date, minus the history quantity already in status Arrivage,
minus the tracker bucket — a shipment dated on or after the delivery date
contributes nothing, and the line is allocated from incoming (tracker incremented
by the requested quantity) exactly when that availability covers the request. -/
theorem incoming_availability (env : Env) (t : List (String × ℚ)) (d : Detail)
    (p : ProduitFields) (D : Date)
    (hp : env.produits.find? (fun p => p.Title == d.fields.Reference) = some p)
    (hsdf : p.Origine.getD "" = "SDF")
    (hdl : env.date_livraison = some D)
    (hlt : ¬ dispoMain env t d.fields.Reference ≥ parse_float d.fields.Quantite)
    (hsec : secondaryDeclared env.site_stock_bis = false ∨
      ¬ dispoSec env t d.fields.Reference ≥ parse_float d.fields.Quantite)
    (hdates : ∀ a ∈ env.arrivages, (a.Title == d.fields.Reference) = true →
      truthyStr a.Date = true → (pyParseDate (a.Date.getD "")).isSome = true) :
    q_arrivE env.arrivages d.fields.Reference (some D) =
      .ok (incomingSpec env.arrivages d.fields.Reference D) ∧
    (∀ (a : ArrivageFields) (rest : List ArrivageFields) (dd : Date),
      pyParseDate (a.Date.getD "") = some dd → Date.ltb dd D = false →
      incomingSpec (a :: rest) d.fields.Reference D =
        incomingSpec rest d.fields.Reference D) ∧
    processDetail env t d =
      (if (incomingSpec env.arrivages d.fields.Reference D -
            q_en_cours env.history d.fields.Reference) -
            trackGet t (keyArriv d.fields.Reference) ≥ parse_float d.fields.Quantite
       then .ok ⟨trackSet t (keyArriv d.fields.Reference)
              (trackGet t (keyArriv d.fields.Reference) + parse_float d.fields.Quantite),
            none, [⟨d.id, [("Statut", some "Arrivage")]⟩], .arrivage⟩
       else .ok ⟨t, some ⟨d.fields.Reference, "stock et arrivage insuffisants"⟩, [],
            .ruptureSdF⟩) := by
  have hok : q_arrivE env.arrivages d.fields.Reference (some D) =
      .ok (incomingSpec env.arrivages d.fields.Reference D) := by
    simp only [q_arrivE]
    exact q_arrivGo_ok_of_parseable _ _ _ hdates
  refine ⟨hok, ?_, ?_⟩
  · intro a rest dd hparse hlate
    simp [incomingSpec, List.filter_cons, hparse, hlate]
  · rw [processDetail_reaches_arrivage env t d p hp hsdf hlt hsec]
    unfold arrivageStep
    rw [hdl, hok]

theorem incoming_availability_witness :
    (([⟨some "R1", some "SDF"⟩] : List ProduitFields).find?
        (fun p => p.Title == (some "R1" : Option String)) = some ⟨some "R1", some "SDF"⟩) ∧
    (¬ dispoMain ⟨some "S", none, some ⟨2025, 3, 10⟩, [⟨some "R1", some "SDF"⟩], [],
        [⟨some "R1", some "2025-03-01", .num 20⟩, ⟨some "R1", some "2025-03-15", .num 7⟩],
        []⟩ [] (some "R1") ≥ parse_float (FieldVal.num 6)) ∧
    incomingSpec [⟨some "R1", some "2025-03-01", .num 20⟩,
        ⟨some "R1", some "2025-03-15", .num 7⟩] (some "R1") ⟨2025, 3, 10⟩ = 20 ∧
    q_arrivE [⟨some "R1", some "2025-03-01", .num 20⟩,
        ⟨some "R1", some "2025-03-15", .num 7⟩] (some "R1") (some ⟨2025, 3, 10⟩) =
      .ok (incomingSpec [⟨some "R1", some "2025-03-01", .num 20⟩,
        ⟨some "R1", some "2025-03-15", .num 7⟩] (some "R1") ⟨2025, 3, 10⟩) := by
  have hlt : ¬ dispoMain ⟨some "S", none, some ⟨2025, 3, 10⟩, [⟨some "R1", some "SDF"⟩], [],
      [⟨some "R1", some "2025-03-01", .num 20⟩, ⟨some "R1", some "2025-03-15", .num 7⟩],
      []⟩ [] (some "R1") ≥ parse_float (FieldVal.num 6) := by
    norm_num [dispoMain, q_inv, q_resa, trackGet, parse_float, resaCounts, List.filter]
  have h := incoming_availability ⟨some "S", none, some ⟨2025, 3, 10⟩,
      [⟨some "R1", some "SDF"⟩], [],
      [⟨some "R1", some "2025-03-01", .num 20⟩, ⟨some "R1", some "2025-03-15", .num 7⟩], []⟩
      [] ⟨"1", ⟨some "R1", some "R1", .num 6, none, none, none⟩⟩
      ⟨some "R1", some "SDF"⟩ ⟨2025, 3, 10⟩ (by decide) (by decide) rfl hlt
      (Or.inl rfl) (by decide)
  have hfil : ([⟨some "R1", some "2025-03-01", .num 20⟩,
      ⟨some "R1", some "2025-03-15", .num 7⟩] : List ArrivageFields).filter
      (fun a => a.Title == (some "R1" : Option String) && truthyStr a.Date &&
        (match pyParseDate (a.Date.getD "") with
         | some d => Date.ltb d ⟨2025, 3, 10⟩
         | none => false)) = [⟨some "R1", some "2025-03-01", .num 20⟩] := by decide
  have hspec : incomingSpec [⟨some "R1", some "2025-03-01", .num 20⟩,
      ⟨some "R1", some "2025-03-15", .num 7⟩] (some "R1") ⟨2025, 3, 10⟩ = 20 := by
    unfold incomingSpec
    rw [hfil]
    norm_num [parse_float]
  refine ⟨by decide, hlt, hspec, ?_⟩
  exact h.1

end SDFStock

namespace SDFStock

lemma q_arrivGo_error_of_bad (reference : Option String) (D : Date) :
    ∀ (arr : List ArrivageFields) (a : ArrivageFields), a ∈ arr →
      (a.Title == reference) = true → truthyStr a.Date = true →
      pyParseDate (a.Date.getD "") = none →
      q_arrivGo reference D arr = .error () := by
  intro arr
  induction arr with
  | nil => intro a ha; cases ha
  | cons b rest ih =>
    intro a ha hT hD hP
    rcases List.mem_cons.mp ha with rfl | ha2
    · simp only [q_arrivGo, hP]
      rw [if_pos (And.intro hT hD)]
    · by_cases hc : ((b.Title == reference) = true ∧ truthyStr b.Date = true)
      · cases hparse : pyParseDate (b.Date.getD "") with
        | none => simp only [q_arrivGo, if_pos hc, hparse]
        | some dd => simp only [q_arrivGo, if_pos hc, hparse, ih a ha2 hT hD hP]
      · simp only [q_arrivGo, if_neg hc, ih a ha2 hT hD hP]

/-- C5 counterexample: a run is NOT immune to malformed date fields.  A single
SDF line in shortage at the primary site, with a delivery date set and one
incoming-shipment row whose reference matches but whose date text does not parse,
makes the loop raise (`strptime` at line 320 has no surrounding try/except): the
run aborts instead of excluding the record and completing. -/
theorem malformed_arrivage_date_raises :
    runLoop ⟨some "S", none, some ⟨2025, 3, 10⟩, [⟨some "R1", some "SDF"⟩], [],
        [⟨some "R1", some "2025/03/01", .num 20⟩], []⟩ [] [] [] []
      [⟨"1", ⟨some "R1", some "R1", .num 5, none, none, none⟩⟩] = .error [] := by
  have hlt : ¬ dispoMain ⟨some "S", none, some ⟨2025, 3, 10⟩, [⟨some "R1", some "SDF"⟩], [],
      [⟨some "R1", some "2025/03/01", .num 20⟩], []⟩ []
      (⟨"1", ⟨some "R1", some "R1", .num 5, none, none, none⟩⟩ : Detail).fields.Reference ≥
      parse_float (⟨"1", ⟨some "R1", some "R1", .num 5, none, none, none⟩⟩ : Detail).fields.Quantite := by
    norm_num [dispoMain, q_inv, q_resa, trackGet, parse_float, List.filter]
  have hpd := processDetail_reaches_arrivage
    ⟨some "S", none, some ⟨2025, 3, 10⟩, [⟨some "R1", some "SDF"⟩], [],
      [⟨some "R1", some "2025/03/01", .num 20⟩], []⟩ []
    ⟨"1", ⟨some "R1", some "R1", .num 5, none, none, none⟩⟩
    ⟨some "R1", some "SDF"⟩ (by decide) (by decide) hlt (Or.inl rfl)
  have harr : arrivageStep ⟨some "S", none, some ⟨2025, 3, 10⟩, [⟨some "R1", some "SDF"⟩], [],
      [⟨some "R1", some "2025/03/01", .num 20⟩], []⟩ [] "1" (some "R1")
      (parse_float (FieldVal.num 5)) = .error () := rfl
  simp only [runLoop, hpd, harr]

/-- C5 amended: malformed numeric fields degrade to zero and a falsy or
unparseable order delivery date is treated as absent (the incoming sum is then
empty and nothing is parsed), but a malformed arrival date on an incoming row
whose reference matches a line that reaches the incoming step raises an error
that aborts the run (caught only by the outer handler as a 500). -/
theorem malformed_fields_degradation :
    (∀ s : String, floatOfString? s = none → parse_float (.str s) = 0) ∧
    parse_float .missing = 0 ∧
    (∀ (arr : List ArrivageFields) (reference : Option String),
      q_arrivE arr reference none = .ok 0) ∧
    (∀ (env : Env) (t : List (String × ℚ)) (d : Detail) (p : ProduitFields) (D : Date)
        (a : ArrivageFields),
      env.produits.find? (fun p => p.Title == d.fields.Reference) = some p →
      p.Origine.getD "" = "SDF" →
      ¬ dispoMain env t d.fields.Reference ≥ parse_float d.fields.Quantite →
      (secondaryDeclared env.site_stock_bis = false ∨
        ¬ dispoSec env t d.fields.Reference ≥ parse_float d.fields.Quantite) →
      env.date_livraison = some D →
      a ∈ env.arrivages → (a.Title == d.fields.Reference) = true →
      truthyStr a.Date = true → pyParseDate (a.Date.getD "") = none →
      processDetail env t d = .error ()) := by
  refine ⟨fun s hs => by simp [parse_float, hs], rfl, fun arr reference => rfl, ?_⟩
  intro env t d p D a hp hsdf hlt hsec hdl ha hT hD hP
  rw [processDetail_reaches_arrivage env t d p hp hsdf hlt hsec]
  unfold arrivageStep
  rw [hdl]
  simp only [q_arrivE]
  rw [q_arrivGo_error_of_bad d.fields.Reference D env.arrivages a ha hT hD hP]

theorem malformed_fields_degradation_witness :
    (floatOfString? "abc" = none ∧ parse_float (.str "abc") = 0) ∧
    q_arrivE [⟨some "R2", some "not a date", .num 3⟩] (some "R2") none = .ok 0 ∧
    processDetail ⟨some "A", none, some ⟨2024, 1, 2⟩, [⟨some "R2", some "SDF"⟩], [],
        [⟨some "R2", some "not a date", .num 3⟩], []⟩ []
      ⟨"9", ⟨some "R2", some "R2", .num 4, none, none, none⟩⟩ = .error () := by
  have hlt : ¬ dispoMain ⟨some "A", none, some ⟨2024, 1, 2⟩, [⟨some "R2", some "SDF"⟩], [],
      [⟨some "R2", some "not a date", .num 3⟩], []⟩ []
      (⟨"9", ⟨some "R2", some "R2", .num 4, none, none, none⟩⟩ : Detail).fields.Reference ≥
      parse_float (⟨"9", ⟨some "R2", some "R2", .num 4, none, none, none⟩⟩ : Detail).fields.Quantite := by
    norm_num [dispoMain, q_inv, q_resa, trackGet, parse_float, List.filter]
  refine ⟨⟨rfl, malformed_fields_degradation.1 "abc" rfl⟩,
    malformed_fields_degradation.2.2.1 _ _, ?_⟩
  exact malformed_fields_degradation.2.2.2
    ⟨some "A", none, some ⟨2024, 1, 2⟩, [⟨some "R2", some "SDF"⟩], [],
      [⟨some "R2", some "not a date", .num 3⟩], []⟩ []
    ⟨"9", ⟨some "R2", some "R2", .num 4, none, none, none⟩⟩
    ⟨some "R2", some "SDF"⟩ ⟨2024, 1, 2⟩ ⟨some "R2", some "not a date", .num 3⟩
    (by decide) (by decide) hlt (Or.inl rfl) rfl (by decide) (by decide) (by decide) (by decide)

end SDFStock

namespace SDFStock

lemma split_eq_map_chunks (f : String) (n : Nat) :
    ∀ values : List String,
      split_filter_queries f values n = (chunksOf n values).map (clauseFor f) := by
  intro values
  induction values, n using split_filter_queries.induct f with
  | case1 vals m h =>
    rw [split_filter_queries, chunksOf, dif_pos h, dif_pos h]
    rfl
  | case2 vals m h ih =>
    rw [split_filter_queries, chunksOf, dif_neg h, dif_neg h]
    simp [ih]

lemma chunksOf_flatten {α : Type} (n : Nat) (hn : n ≠ 0) :
    ∀ l : List α, (chunksOf n l).flatten = l := by
  intro l
  induction l using chunksOf.induct n with
  | case1 l h =>
    have : l = [] := by
      rcases h with h | h
      · simpa using h
      · exact absurd h hn
    subst this
    rw [chunksOf, dif_pos (by simp)]
    rfl
  | case2 l h ih =>
    rw [chunksOf, dif_neg h]
    simp [ih]

lemma chunksOf_chunk_length {α : Type} (n : Nat) :
    ∀ (l : List α) (c : List α), c ∈ chunksOf n l → c.length ≤ n := by
  intro l
  induction l using chunksOf.induct n with
  | case1 l h =>
    intro c hc
    rw [chunksOf, dif_pos h] at hc
    cases hc
  | case2 l h ih =>
    intro c hc
    rw [chunksOf, dif_neg h] at hc
    rcases List.mem_cons.mp hc with rfl | hc2
    · simpa using Nat.min_le_left n l.length
    · exact ih c hc2

lemma countP_mem_of_sum_counts_zero {α : Type} [DecidableEq α] (v : α) :
    ∀ cs : List (List α), (cs.map (List.count v)).sum = 0 →
      cs.countP (fun c => decide (v ∈ c)) = 0 := by
  intro cs
  induction cs with
  | nil => intro _; rfl
  | cons c rest ih =>
    intro h
    simp only [List.map_cons, List.sum_cons] at h
    have hc : List.count v c = 0 := by omega
    have hr : (rest.map (List.count v)).sum = 0 := by omega
    have hnot : v ∉ c := List.count_eq_zero.mp hc
    rw [List.countP_cons]
    simp [hnot, ih hr]

lemma countP_mem_of_sum_counts_one {α : Type} [DecidableEq α] (v : α) :
    ∀ cs : List (List α), (cs.map (List.count v)).sum = 1 →
      cs.countP (fun c => decide (v ∈ c)) = 1 := by
  intro cs
  induction cs with
  | nil => intro h; cases h
  | cons c rest ih =>
    intro h
    simp only [List.map_cons, List.sum_cons] at h
    rw [List.countP_cons]
    by_cases hc : v ∈ c
    · have hcpos : 0 < List.count v c := List.count_pos_iff.mpr hc
      have hr : (rest.map (List.count v)).sum = 0 := by omega
      simp [hc, countP_mem_of_sum_counts_zero v rest hr]
    · have hc0 : List.count v c = 0 := List.count_eq_zero.mpr hc
      rw [hc0] at h
      simp [hc, ih (by omega)]

/-- C7: the cross-order history fetch batches the (distinct) references into
consecutive slices of at most 20 values, builds one disjunctive filter expression
per slice, and issues one query per expression, concatenating the responses in
slice order; every reference lands in exactly one slice. -/
theorem history_batching (field : String) (values : List String) (hnd : values.Nodup) :
    split_filter_queries field values 20 = (chunksOf 20 values).map (clauseFor field) ∧
    (chunksOf 20 values).flatten = values ∧
    (∀ c ∈ chunksOf 20 values, c.length ≤ 20) ∧
    (∀ v ∈ values, (chunksOf 20 values).countP (fun c => decide (v ∈ c)) = 1) ∧
    (∀ w : World, fetchHistory w (split_filter_queries field values 20) =
      ((split_filter_queries field values 20).map w.historyResp).flatten) := by
  refine ⟨split_eq_map_chunks field 20 values,
    chunksOf_flatten 20 (by norm_num) values,
    fun c hc => chunksOf_chunk_length 20 values c hc, ?_, fun w => rfl⟩
  intro v hv
  have hflat := chunksOf_flatten 20 (by norm_num) values
  have hcount : ((chunksOf 20 values).map (List.count v)).sum = 1 := by
    have hcf := List.count_flatten v (chunksOf 20 values)
    rw [hflat] at hcf
    rw [← hcf]
    exact List.count_eq_one_of_mem hnd hv
  exact countP_mem_of_sum_counts_one v _ hcount

theorem history_batching_witness :
    (["R1", "R2", "R3"] : List String).Nodup ∧
    (chunksOf 20 ["R1", "R2", "R3"]).flatten = ["R1", "R2", "R3"] :=
  ⟨by decide, (history_batching "fields/Title" ["R1", "R2", "R3"] (by decide)).2.1⟩

end SDFStock

namespace SDFStock

/-- C6: the HTTP entry point of the Validation handler maps outcomes to status
codes: missing (falsy) `commande_id` gives 400 with no external call issued;
failed token acquisition gives 500; order not found by id gives 404; an error
raised inside the run gives 500 with a message; completion gives 200 with a body
carrying `commande_id`, `statut`, `ruptures` and `nb_produits_commande`,
shortages or not. -/
theorem http_status_mapping (w : World) (b : ReqBody) :
    (truthyStr b.commande_id = false →
      mainValidation (some b) w = (.r400 msgParamRequis, [])) ∧
    (truthyStr b.commande_id = true → w.token = none →
      (mainValidation (some b) w).1 = .r500 msgAuthFailed) ∧
    (∀ tok, truthyStr b.commande_id = true → w.token = some tok →
      w.commandeItem = none →
      (mainValidation (some b) w).1 = .r404 "Commande introuvable") ∧
    (∀ tok c us, truthyStr b.commande_id = true → w.token = some tok →
      w.commandeItem = some c →
      runLoop (mkEnv c w (fetchHistory w (split_filter_queries "fields/Title"
          (references_utiles w.details) 20))) [] [] [] [] w.details = .error us →
      (mainValidation (some b) w).1 = .r500 (msgServerError "ValueError")) ∧
    (∀ tok c res, truthyStr b.commande_id = true → w.token = some tok →
      w.commandeItem = some c →
      runLoop (mkEnv c w (fetchHistory w (split_filter_queries "fields/Title"
          (references_utiles w.details) 20))) [] [] [] [] w.details = .ok res →
      (mainValidation (some b) w).1 =
        .r200 ⟨pyStr b.commande_id,
          if res.ruptures.isEmpty then "OK" else "Rupture",
          res.ruptures, w.details.length⟩) := by
  refine ⟨?_, ?_, ?_, ?_, ?_⟩
  · intro h
    simp [mainValidation, h]
  · intro h htok
    simp [mainValidation, h, htok]
  · intro tok h htok hitem
    simp [mainValidation, h, htok, hitem]
  · intro tok c us h htok hitem hrun
    simp [mainValidation, h, htok, hitem, hrun]
  · intro tok c res h htok hitem hrun
    simp [mainValidation, h, htok, hitem, hrun]

end SDFStock

namespace SDFStock

theorem http_status_mapping_witness :
    mainValidation (some ⟨none⟩)
        ⟨none, none, [], [], [], [], fun _ => []⟩ = (.r400 msgParamRequis, []) ∧
    (mainValidation (some ⟨some "1"⟩)
        ⟨none, none, [], [], [], [], fun _ => []⟩).1 = .r500 msgAuthFailed ∧
    (mainValidation (some ⟨some "1"⟩)
        ⟨some "t", none, [], [], [], [], fun _ => []⟩).1 = .r404 "Commande introuvable" ∧
    (mainValidation (some ⟨some "1"⟩)
        ⟨some "t", some ⟨some "S", none, some "2025-03-10"⟩,
          [⟨"1", ⟨none, some "R1", .num 5, none, none, none⟩⟩],
          [⟨some "R1", some "SDF"⟩], [], [⟨some "R1", some "2025/03/01", .num 20⟩],
          fun _ => []⟩).1 = .r500 (msgServerError "ValueError") ∧
    (mainValidation (some ⟨some "1"⟩)
        ⟨some "t", some ⟨some "S", none, some "2025-03-10"⟩, [], [], [], [],
          fun _ => []⟩).1 =
      .r200 ⟨"1", "OK", [], 0⟩ := by
  have hsplit : split_filter_queries "fields/Title" ([] : List String) 20 = [] := by
    rw [split_filter_queries, dif_pos (by simp)]
  have hrefs : references_utiles [⟨"1", ⟨none, some "R1", .num 5, none, none, none⟩⟩] =
      ([] : List String) := by decide
  have hlt : ¬ dispoMain ⟨some "S", none, some ⟨2025, 3, 10⟩, [⟨some "R1", some "SDF"⟩], [],
      [⟨some "R1", some "2025/03/01", .num 20⟩], []⟩ []
      (⟨"1", ⟨none, some "R1", .num 5, none, none, none⟩⟩ : Detail).fields.Reference ≥
      parse_float (⟨"1", ⟨none, some "R1", .num 5, none, none, none⟩⟩ : Detail).fields.Quantite := by
    norm_num [dispoMain, q_inv, q_resa, trackGet, parse_float, List.filter]
  have hpd := processDetail_reaches_arrivage
    ⟨some "S", none, some ⟨2025, 3, 10⟩, [⟨some "R1", some "SDF"⟩], [],
      [⟨some "R1", some "2025/03/01", .num 20⟩], []⟩ []
    ⟨"1", ⟨none, some "R1", .num 5, none, none, none⟩⟩
    ⟨some "R1", some "SDF"⟩ (by decide) (by decide) hlt (Or.inl rfl)
  have harr : arrivageStep ⟨some "S", none, some ⟨2025, 3, 10⟩, [⟨some "R1", some "SDF"⟩], [],
      [⟨some "R1", some "2025/03/01", .num 20⟩], []⟩ [] "1" (some "R1")
      (parse_float (FieldVal.num 5)) = .error () := rfl
  have hrun : runLoop (mkEnv ⟨some "S", none, some "2025-03-10"⟩
      ⟨some "t", some ⟨some "S", none, some "2025-03-10"⟩,
        [⟨"1", ⟨none, some "R1", .num 5, none, none, none⟩⟩],
        [⟨some "R1", some "SDF"⟩], [], [⟨some "R1", some "2025/03/01", .num 20⟩],
        fun _ => []⟩
      (fetchHistory ⟨some "t", some ⟨some "S", none, some "2025-03-10"⟩,
        [⟨"1", ⟨none, some "R1", .num 5, none, none, none⟩⟩],
        [⟨some "R1", some "SDF"⟩], [], [⟨some "R1", some "2025/03/01", .num 20⟩],
        fun _ => []⟩
        (split_filter_queries "fields/Title" (references_utiles
          [⟨"1", ⟨none, some "R1", .num 5, none, none, none⟩⟩]) 20))) [] [] [] []
      [⟨"1", ⟨none, some "R1", .num 5, none, none, none⟩⟩] = .error [] := by
    rw [hrefs, hsplit]
    show runLoop ⟨some "S", none, some ⟨2025, 3, 10⟩, [⟨some "R1", some "SDF"⟩], [],
        [⟨some "R1", some "2025/03/01", .num 20⟩], []⟩ [] [] [] []
        [⟨"1", ⟨none, some "R1", .num 5, none, none, none⟩⟩] = .error []
    simp only [runLoop, hpd, harr]
  exact ⟨(http_status_mapping _ _).1 rfl,
    (http_status_mapping _ _).2.1 rfl rfl,
    (http_status_mapping _ _).2.2.1 "t" rfl rfl rfl,
    (http_status_mapping _ _).2.2.2.1 "t" ⟨some "S", none, some "2025-03-10"⟩ [] rfl rfl rfl hrun,
    (http_status_mapping _ _).2.2.2.2 "t" ⟨some "S", none, some "2025-03-10"⟩
      ⟨[], [], [], []⟩ rfl rfl rfl rfl⟩

end SDFStock

namespace SDFStock

/-- C8: `CommandeVerification.main` returns 500 for every request: its body reads
local names that are never assigned (the initialization block is absent), so the
first such read — `len(details)` at line 288 — raises `NameError`, caught by the
outer handler; no allocation computation or gateway write is performed.  The
second part checks that each name the claim lists is indeed assigned nowhere in
the body. -/
theorem verification_always_500 :
    (∀ req : ReqBody,
      mainVerification req = (.r500 (msgServerError (nameErrorMsg "details")), [])) ∧
    (∀ n ∈ verificationClaimedUnassigned, n ∉ verificationAssigned) := by
  constructor
  · intro req
    rfl
  · decide

theorem verification_always_500_witness :
    ("details" ∈ verificationClaimedUnassigned ∧ "details" ∉ verificationAssigned) ∧
    ("token" ∈ verificationClaimedUnassigned ∧ "token" ∉ verificationAssigned) :=
  ⟨⟨by decide, verification_always_500.2 "details" (by decide)⟩,
   ⟨by decide, verification_always_500.2 "token" (by decide)⟩⟩

/-- C9: `CommandeReception` can never complete an allocation run.  The module does
not even compile: the `else:` at line 459 has an empty suite (only a comment and a
blank line before the dedented `else:` at 462), which CPython rejects before any
request is served.  Independently, the primary-site shortage branch reads `dispo`
in the log call at line 425 before `dispo` is first assigned at line 427, so that
branch would raise `NameError` even if the module parsed. -/
theorem reception_never_runs :
    receptionModuleParses = false ∧
    runStmts receptionBoundAt406 receptionShortageBranchStmts = .error "dispo" := by
  constructor
  · rfl
  · rfl

end SDFStock
